import Mathlib

/-!
Verification of the `@purpleduck/cloudwatch-logs` client-side log batching engine.

The development shallowly embeds the TypeScript sources:
* namespace `Cwl`  — the module implementation (constants, buffer map, `pushLog`,
  `reachedBufferLimits`, `logEventExceedsSize`, `getOrderedLogs`, `createLogGroup`,
  the `_flush` retry loop, `setup`, the `FlushInterval` setter);
* namespace `Cwl.B` — the variant module whose `reachedBufferLimits` omits the
  fixed per-event overhead when summing buffered byte sizes;
* namespace `Cwl.Pg` — the `CloudWatchLogger` class implementation with the
  configurable `overSizedMessageAction` policy (`clip` | `error` | `console`);
  its messages are modelled as Unicode code-point sequences so that the byte
  slice plus UTF-8 re-decode performed by its clip path is expressible.

In the module embeddings a log message is represented by its UTF-8 byte
sequence (`List Nat`), so that `Buffer.byteLength(message, "utf-8")` becomes
`List.length`.  Timestamps are `Nat` (milliseconds since the epoch).
JavaScript `Map` objects preserve insertion order, so they are embedded as
association lists of key/value pairs; the source encodes the destination key as
the string `group ++ "{::}" ++ stream` and splits it back when draining — for
separator-free names (the only defined behaviour) this round-trips, so the
embedding keys buffers by the structured pair directly.
-/

namespace Cwl

/-- Source constant `CLOUDWATCH_FIXED_EVENT_PREFIX = 26` bytes, the fixed
per-event bookkeeping overhead.  (The Lean name drops the final source word
to satisfy local naming conventions; the value and uses are identical.) -/
def CLOUDWATCH_FIXED_EVENT_OVERHEAD : Nat := 26

/-- `CLOUDWATCH_MAX_EVENT_SIZE = 2 ** 18 - CLOUDWATCH_FIXED_EVENT_PREFIX`. -/
def CLOUDWATCH_MAX_EVENT_SIZE : Nat := 2 ^ 18 - CLOUDWATCH_FIXED_EVENT_OVERHEAD

/-- `CLOUDWTACH_MAX_BUFFER_LENGTH = 10_000` (source spelling kept). -/
def CLOUDWTACH_MAX_BUFFER_LENGTH : Nat := 10000

/-- `CLOUDWATCH_MAX_BUFFER_SIZE = 2 ** 20` bytes. -/
def CLOUDWATCH_MAX_BUFFER_SIZE : Nat := 2 ^ 20

/-- A buffered log event: `{ timestamp: number, message: string }`, the message
represented by its UTF-8 byte sequence. -/
structure Log where
  timestamp : Nat
  message : List Nat
  deriving DecidableEq

/-- `Buffer.byteLength(message, "utf-8")` on the byte-sequence representation. -/
def byteLength (m : List Nat) : Nat := m.length

/-- Destination key: the `(groupName, streamName)` pair that the source encodes
as `groupName ++ "{::}" ++ streamName`. -/
abbrev Key := String × String

/-- The `bufferedLogs` map: insertion-ordered association list. -/
abbrev BufferMap := List (Key × List Log)

/-- `Map.get` — first entry with the given key, if any. -/
def bufGet (m : BufferMap) (k : Key) : Option (List Log) :=
  (m.find? (fun e => decide (e.1 = k))).map (fun e => e.2)

/-- `Map.set` — replace the entry in place if the key is present (JavaScript
maps keep the original insertion position), otherwise append a new entry. -/
def bufSet (m : BufferMap) (k : Key) (v : List Log) : BufferMap :=
  if m.any (fun e => decide (e.1 = k)) then
    m.map (fun e => if e.1 = k then (k, v) else e)
  else
    m ++ [(k, v)]

/-- `pushLog(logGroupName, logStreamName, log)`: create the buffer when absent,
then push the log at its end. -/
def pushLog (m : BufferMap) (g s : String) (log : Log) : BufferMap :=
  bufSet m (g, s) (((bufGet m (g, s)).getD []) ++ [log])

/-- The comparator `(a, b) => a.timestamp - b.timestamp` used by the source with
`Array.prototype.sort`, which is specified to be stable; embedded as a stable
merge sort on the boolean relation `a.timestamp ≤ b.timestamp`. -/
def sortLogs (l : List Log) : List Log :=
  l.mergeSort (fun a b => decide (a.timestamp ≤ b.timestamp))

/-- `getOrderedLogs()`: walk the buffer map in insertion order, reset every
entry to the empty buffer, and return one `(group, stream, sortedLogs)` triple
per entry.  Returns the drained triples together with the updated map. -/
def getOrderedLogs (m : BufferMap) : List (String × String × List Log) × BufferMap :=
  (m.map (fun e => (e.1.1, e.1.2, sortLogs e.2)),
   m.map (fun e => (e.1, ([] : List Log))))

/- Helper lemmas about the stable sort. -/

theorem sortLogs_le_trans (a b c : Log) :
    (decide (a.timestamp ≤ b.timestamp)) = true →
    (decide (b.timestamp ≤ c.timestamp)) = true →
    (decide (a.timestamp ≤ c.timestamp)) = true := by
  simp only [decide_eq_true_eq]
  omega

theorem sortLogs_le_total (a b : Log) :
    ((decide (a.timestamp ≤ b.timestamp)) || (decide (b.timestamp ≤ a.timestamp))) = true := by
  simp only [Bool.or_eq_true, decide_eq_true_eq]
  omega

theorem sortLogs_perm (l : List Log) : List.Perm (sortLogs l) l :=
  List.mergeSort_perm l _

theorem sortLogs_sorted (l : List Log) :
    (sortLogs l).Pairwise (fun a b => a.timestamp ≤ b.timestamp) := by
  have h := List.sorted_mergeSort sortLogs_le_trans sortLogs_le_total l
  exact h.imp (fun hab => of_decide_eq_true hab)

/-- Stability: the subsequence of events carrying any fixed timestamp is
unchanged by the sort, i.e. equal timestamps keep their insertion order. -/
theorem sortLogs_filter_timestamp (l : List Log) (t : Nat) :
    (sortLogs l).filter (fun x => decide (x.timestamp = t)) =
      l.filter (fun x => decide (x.timestamp = t)) := by
  set p : Log → Bool := fun x => decide (x.timestamp = t) with hp
  have hpair : (l.filter p).Pairwise (fun a b => decide (a.timestamp ≤ b.timestamp) = true) := by
    apply List.pairwise_of_forall_mem_list
    intro a ha b hb
    have ha2 : p a = true := List.of_mem_filter ha
    have hb2 : p b = true := List.of_mem_filter hb
    simp only [hp, decide_eq_true_eq] at ha2 hb2 ⊢
    omega
  have hsub : List.Sublist (l.filter p) (sortLogs l) :=
    List.sublist_mergeSort sortLogs_le_trans sortLogs_le_total hpair (List.filter_sublist l)
  have hsub2 : List.Sublist ((l.filter p).filter p) ((sortLogs l).filter p) := hsub.filter p
  have hself : (l.filter p).filter p = l.filter p := by
    apply List.filter_eq_self.mpr
    intro a ha
    exact List.of_mem_filter ha
  rw [hself] at hsub2
  have hlen : (l.filter p).length = ((sortLogs l).filter p).length :=
    (((sortLogs_perm l).filter p).length_eq).symm
  exact (hsub2.eq_of_length hlen).symm

/-- C1 counterexample: a buffer map whose only buffer is empty.  The drained
snapshot still contains a triple for it (with an empty events list), so the
returned snapshot is not the collection of the non-empty buffers only. -/
theorem getOrderedLogs_includes_empty :
    (getOrderedLogs [(("g", "s"), ([] : List Log))]).1 = [("g", "s", ([] : List Log))] ∧
    ¬ (∀ out ∈ (getOrderedLogs [(("g", "s"), ([] : List Log))]).1, out.2.2 ≠ []) := by
  constructor
  · simp [getOrderedLogs, sortLogs]
  · intro h
    exact (h ("g", "s", ([] : List Log)) (by simp [getOrderedLogs, sortLogs])) rfl

/-- C1 (amended): `getOrderedLogs` drains a snapshot of all buffers — one
triple per map entry, empty buffers included — where each events list is a
permutation of the corresponding buffer, sorted ascending by timestamp, with
equal timestamps preserving insertion order (stable sort); in the same step
every buffer is replaced by an empty one, so a second drain yields only empty
event lists (no event is drained twice) and no event present before the drain
is lost. -/
theorem getOrderedLogs_drain_spec (m : BufferMap) :
    (getOrderedLogs m).1.length = m.length ∧
    (∀ e ∈ (getOrderedLogs m).2, e.2 = []) ∧
    List.Forall₂
      (fun (ent : Key × List Log) (out : String × String × List Log) =>
        out.1 = ent.1.1 ∧ out.2.1 = ent.1.2 ∧
        out.2.2.Pairwise (fun a b => a.timestamp ≤ b.timestamp) ∧
        List.Perm out.2.2 ent.2 ∧
        ∀ t : Nat, out.2.2.filter (fun x => decide (x.timestamp = t)) =
          ent.2.filter (fun x => decide (x.timestamp = t)))
      m (getOrderedLogs m).1 ∧
    (∀ out ∈ (getOrderedLogs (getOrderedLogs m).2).1, out.2.2 = []) := by
  refine ⟨by simp [getOrderedLogs], ?_, ?_, ?_⟩
  · intro e he
    simp only [getOrderedLogs, List.mem_map] at he
    obtain ⟨a, _, rfl⟩ := he
    rfl
  · have : (getOrderedLogs m).1 = m.map (fun e => (e.1.1, e.1.2, sortLogs e.2)) := rfl
    rw [this, List.forall₂_map_right_iff]
    rw [List.forall₂_same]
    intro e _
    exact ⟨rfl, rfl, sortLogs_sorted e.2, sortLogs_perm e.2,
      fun t => sortLogs_filter_timestamp e.2 t⟩
  · intro out hout
    simp only [getOrderedLogs, List.map_map, List.mem_map] at hout
    obtain ⟨a, _, rfl⟩ := hout
    simp [sortLogs]

/-- A two-event demonstration buffer (timestamps out of order) for the drain
witness. -/
def demoBuffer : BufferMap :=
  [(("g", "s"), [{ timestamp := 2, message := [97] }, { timestamp := 1, message := [98] }])]

/-- Concrete instantiation of `getOrderedLogs_drain_spec` on `demoBuffer`. -/
theorem getOrderedLogs_drain_spec_witness :
    (getOrderedLogs demoBuffer).1.length = demoBuffer.length ∧
    (∀ e ∈ (getOrderedLogs demoBuffer).2, e.2 = []) ∧
    List.Forall₂
      (fun (ent : Key × List Log) (out : String × String × List Log) =>
        out.1 = ent.1.1 ∧ out.2.1 = ent.1.2 ∧
        out.2.2.Pairwise (fun a b => a.timestamp ≤ b.timestamp) ∧
        List.Perm out.2.2 ent.2 ∧
        ∀ t : Nat, out.2.2.filter (fun x => decide (x.timestamp = t)) =
          ent.2.filter (fun x => decide (x.timestamp = t)))
      demoBuffer (getOrderedLogs demoBuffer).1 ∧
    (∀ out ∈ (getOrderedLogs (getOrderedLogs demoBuffer).2).1, out.2.2 = []) :=
  getOrderedLogs_drain_spec demoBuffer

/-- `logEventExceedsSize(log)`: `Buffer.byteLength(log.message, "utf-8") >=
CLOUDWATCH_MAX_EVENT_SIZE`. -/
def logEventExceedsSize (log : Log) : Bool :=
  decide (CLOUDWATCH_MAX_EVENT_SIZE ≤ byteLength log.message)

/-- `reachedBufferLimits(logGroup, logStream, newLog)` of the main module:
false when the destination has no buffer; true when appending would make the
count reach the maximum, or when the buffered byte total plus the candidate
size — each message counted with the fixed 26-byte overhead — reaches the
maximum batch byte size. -/
def reachedBufferLimits (buffers : BufferMap) (logGroup logStream : String)
    (newLog : Log) : Bool :=
  match bufGet buffers (logGroup, logStream) with
  | none => false
  | some logs =>
    if CLOUDWTACH_MAX_BUFFER_LENGTH ≤ logs.length + 1 then true
    else
      let size := logs.foldl
        (fun accumulator log =>
          accumulator + byteLength log.message + CLOUDWATCH_FIXED_EVENT_OVERHEAD) 0
      let messageSize := byteLength newLog.message + CLOUDWATCH_FIXED_EVENT_OVERHEAD
      decide (CLOUDWATCH_MAX_BUFFER_SIZE ≤ size + messageSize)

/-- C7 counterexample: a message of exactly `CLOUDWATCH_MAX_EVENT_SIZE` bytes
(262118 — it does not strictly exceed the maximum) is still reported as
oversized, because the source compares with `>=`, not `>`. -/
theorem logEventExceedsSize_boundary :
    logEventExceedsSize { timestamp := 0, message := List.replicate CLOUDWATCH_MAX_EVENT_SIZE 97 } = true ∧
    byteLength (List.replicate CLOUDWATCH_MAX_EVENT_SIZE 97) = CLOUDWATCH_MAX_EVENT_SIZE := by
  constructor
  · simp [logEventExceedsSize, byteLength]
  · simp [byteLength]

/-- C7 (amended): `logEventExceedsSize` returns true exactly when the message
UTF-8 byte length is greater than **or equal to** the maximum single-event
size, which is `2 ^ 18 - 26 = 262118` bytes. -/
theorem logEventExceedsSize_iff (log : Log) :
    (logEventExceedsSize log = true ↔ 262118 ≤ byteLength log.message) ∧
    CLOUDWATCH_MAX_EVENT_SIZE = 262118 := by
  constructor
  · simp [logEventExceedsSize, CLOUDWATCH_MAX_EVENT_SIZE, CLOUDWATCH_FIXED_EVENT_OVERHEAD]
  · decide

/-- Concrete instantiation of `logEventExceedsSize_iff` at a one-byte
message. -/
theorem logEventExceedsSize_iff_witness :
    (logEventExceedsSize { timestamp := 0, message := [97] } = true ↔
      262118 ≤ byteLength ([97] : List Nat)) ∧
    CLOUDWATCH_MAX_EVENT_SIZE = 262118 :=
  logEventExceedsSize_iff { timestamp := 0, message := [97] }

/-!  The `_flush` retry loop.  After a failed full-batch delivery the source runs

    const half = logs.length / 2;
    while (logs.length) {
      const partial = logs.splice(0, half);
      await putEventLogs(groupName, streamName, partial);
    }

`half` is JavaScript float division, computed once; `splice(0, half)` truncates
the removal count toward zero, so each iteration removes `⌊logs.length₀ / 2⌋`
events (possibly zero) from the front and hands them to `putEventLogs`, which
returns immediately on an empty batch.  The embedding indexes the iterations by
fuel and returns the batches handed to `putEventLogs` together with the events
still unsent when the fuel runs out.  (`putEventLogs` failures inside the loop
escape to the outer catch; the loop itself never inspects the recorded error.)
-/

def retryLoopRun (half : Nat) : Nat → List Log → List (List Log) × List Log
  | _, [] => ([], [])
  | 0, logs => ([], logs)
  | fuel + 1, logs =>
    let out := retryLoopRun half fuel (logs.drop half)
    (logs.take half :: out.1, out.2)

/-- The retry phase of `_flush` on one destination batch: loop with
`half = logs.length / 2` (truncated). -/
def flushRetry (logs : List Log) (fuel : Nat) : List (List Log) × List Log :=
  retryLoopRun (logs.length / 2) fuel logs

/-- C2 (code bug): for a batch of exactly one event whose initial delivery
failed, `half = 1 / 2` truncates to zero, and `splice(0, half)` removes
nothing: however many iterations run, every batch handed to `putEventLogs` is
empty (so nothing is ever sent and no terminal per-event error is ever
reported) and the event is still unsent — the while loop never terminates. -/
theorem retry_singleton_no_progress (e : Log) (fuel : Nat) :
    (flushRetry [e] fuel).2 = [e] ∧
    ∀ c ∈ (flushRetry [e] fuel).1, c = [] := by
  induction fuel with
  | zero =>
    refine ⟨rfl, ?_⟩
    intro c hc
    simp [flushRetry, retryLoopRun] at hc
  | succ n ih =>
    have hstep : flushRetry [e] (n + 1) =
        ([] :: (flushRetry [e] n).1, (flushRetry [e] n).2) := by
      simp [flushRetry, retryLoopRun]
    refine ⟨by rw [hstep]; exact ih.1, ?_⟩
    intro c hc
    rw [hstep] at hc
    rcases List.mem_cons.mp hc with h | h
    · exact h
    · exact ih.2 c h

/-- Concrete instantiation of `retry_singleton_no_progress` after five
iterations. -/
theorem retry_singleton_no_progress_witness :
    (flushRetry [{ timestamp := 0, message := [97] }] 5).2 =
      [{ timestamp := 0, message := [97] }] ∧
    ∀ c ∈ (flushRetry [{ timestamp := 0, message := [97] }] 5).1, c = [] :=
  retry_singleton_no_progress { timestamp := 0, message := [97] } 5

/-- When each removal is non-empty (`half ≥ 1`) and the fuel covers the batch
length, the retry loop drains the batch completely and the batches handed to
`putEventLogs` concatenate back to exactly the original list. -/
theorem retryLoopRun_complete (half : Nat) (h1 : 1 ≤ half) (fuel : Nat) :
    ∀ logs : List Log, logs.length ≤ fuel →
      (retryLoopRun half fuel logs).2 = [] ∧
      (retryLoopRun half fuel logs).1.flatten = logs := by
  induction fuel with
  | zero =>
    intro logs hlen
    have : logs = [] := List.eq_nil_of_length_eq_zero (Nat.le_zero.mp hlen)
    subst this
    exact ⟨rfl, rfl⟩
  | succ n ih =>
    intro logs hlen
    cases logs with
    | nil => exact ⟨rfl, rfl⟩
    | cons a as =>
      have hdrop : ((a :: as).drop half).length ≤ n := by
        simp only [List.length_drop, List.length_cons] at hlen ⊢
        omega
      obtain ⟨h2, h3⟩ := ih ((a :: as).drop half) hdrop
      constructor
      · simpa [retryLoopRun] using h2
      · simp only [retryLoopRun, List.flatten_cons]
        rw [h3, List.take_append_drop]

/-- C4 (amended): for any batch of at least two events and enough fuel, the
batches handed back to `putEventLogs` during the retry phase concatenate to
exactly the original event list — every half is resent unmodified (in
particular no event is clipped), whatever the class of the recorded delivery
failure: the loop never inspects the error. -/
theorem retry_resends_unmodified (logs : List Log) (fuel : Nat)
    (h2 : 2 ≤ logs.length) (hfuel : logs.length ≤ fuel) :
    (flushRetry logs fuel).1.flatten = logs ∧ (flushRetry logs fuel).2 = [] := by
  have h1 : 1 ≤ logs.length / 2 := by omega
  obtain ⟨ha, hb⟩ := retryLoopRun_complete (logs.length / 2) h1 fuel logs hfuel
  exact ⟨hb, ha⟩

/-- Concrete instantiation of `retry_resends_unmodified` on a two-event batch. -/
theorem retry_resends_unmodified_witness :
    (flushRetry [{ timestamp := 0, message := [97] }, { timestamp := 1, message := [98] }] 2).1.flatten
      = [{ timestamp := 0, message := [97] }, { timestamp := 1, message := [98] }] ∧
    (flushRetry [{ timestamp := 0, message := [97] }, { timestamp := 1, message := [98] }] 2).2 = [] :=
  retry_resends_unmodified _ 2 (by simp) (by simp)

/-- An event whose message is one byte longer than the maximum single-event
size; used to exhibit that the retry path does not clip. -/
def oversizedLog : Log :=
  { timestamp := 0, message := List.replicate (CLOUDWATCH_MAX_EVENT_SIZE + 1) 97 }

/-- A one-byte companion event for the two-event retry batch. -/
def smallLog : Log := { timestamp := 1, message := [97] }

/-- C4 counterexample: after a recorded delivery failure — of
`InvalidParameterException` class or any other, the loop never looks — on the
batch `[oversizedLog, smallLog]`, the halves handed back to `putEventLogs` are
`[[oversizedLog], [smallLog]]`: the oversized event is resent as-is, its
message still longer than the maximum single-event size, so the current half is
not clipped before being resent. -/
theorem retry_resends_unclipped_cex :
    (flushRetry [oversizedLog, smallLog] 2).1 = [[oversizedLog], [smallLog]] ∧
    ¬ (∀ c ∈ (flushRetry [oversizedLog, smallLog] 2).1, ∀ l ∈ c,
        byteLength l.message ≤ CLOUDWATCH_MAX_EVENT_SIZE) := by
  have h : (flushRetry [oversizedLog, smallLog] 2).1 = [[oversizedLog], [smallLog]] := by
    simp [flushRetry, retryLoopRun]
  refine ⟨h, ?_⟩
  intro hall
  have hbad := hall [oversizedLog] (by rw [h]; simp) oversizedLog (by simp)
  simp only [oversizedLog, byteLength, List.length_replicate] at hbad
  omega

namespace B

/-- `reachedBufferLimits` of the variant module (the part_003 source): same
count condition as the main module, but the byte condition sums the raw UTF-8
message lengths with no fixed per-event overhead, for the buffered logs and
for the candidate alike.  (That source names the constants
`MAX_BUFFER_LENGTH` and `MAX_BUFFER_SIZE`; the values are identical, so the
shared constants are reused.) -/
def reachedBufferLimits (buffers : BufferMap) (logGroup logStream : String)
    (newLog : Log) : Bool :=
  match bufGet buffers (logGroup, logStream) with
  | none => false
  | some logs =>
    if CLOUDWTACH_MAX_BUFFER_LENGTH ≤ logs.length + 1 then true
    else
      let size := logs.foldl (fun accumulator log => accumulator + byteLength log.message) 0
      let messageSize := byteLength newLog.message
      decide (CLOUDWATCH_MAX_BUFFER_SIZE ≤ size + messageSize)

end B

/-- Folding `acc + f x` over a list starting from `n` is `n` plus the sum of
the mapped list. -/
theorem foldl_add_eq_sum (f : Log → Nat) (l : List Log) (n : Nat) :
    l.foldl (fun acc x => acc + f x) n = n + (l.map f).sum := by
  induction l generalizing n with
  | nil => simp
  | cons a as ih =>
    simp only [List.foldl_cons, List.map_cons, List.sum_cons, ih]
    omega

/-- Variant of `foldl_add_eq_sum` for a body of the shape `acc + f x + c`. -/
theorem foldl_add_add_eq_sum {f : Log → Nat} {c : Nat} (l : List Log) (n : Nat) :
    l.foldl (fun acc x => acc + f x + c) n = n + (l.map (fun x => f x + c)).sum := by
  induction l generalizing n with
  | nil => simp
  | cons a as ih =>
    simp only [List.foldl_cons, List.map_cons, List.sum_cons, ih]
    omega

/-- Characterization of the variant (part_003) predicate: raw byte sums, no
overhead. -/
theorem reachedBufferLimitsB_iff_aux (buffers : BufferMap) (g s : String) (newLog : Log) :
    B.reachedBufferLimits buffers g s newLog = true ↔
      ∃ logs, bufGet buffers (g, s) = some logs ∧
        (CLOUDWTACH_MAX_BUFFER_LENGTH ≤ logs.length + 1 ∨
          CLOUDWATCH_MAX_BUFFER_SIZE ≤
            (logs.map (fun l => byteLength l.message)).sum + byteLength newLog.message) := by
  unfold B.reachedBufferLimits
  cases hget : bufGet buffers (g, s) with
  | none => simp
  | some logs =>
    simp only [Option.some.injEq]
    by_cases hC : CLOUDWTACH_MAX_BUFFER_LENGTH ≤ logs.length + 1
    · simp only [if_pos hC, true_iff]
      exact ⟨logs, rfl, Or.inl hC⟩
    · simp only [if_neg hC]
      rw [foldl_add_eq_sum, Nat.zero_add]
      constructor
      · intro h
        exact ⟨logs, rfl, Or.inr (of_decide_eq_true h)⟩
      · rintro ⟨logs2, heq, hor⟩
        cases heq
        rcases hor with h | h
        · exact absurd h hC
        · exact decide_eq_true h

/-- Characterization of the main module's predicate: byte sums counted with
the fixed 26-byte per-event overhead on every message, candidate included. -/
theorem reachedBufferLimits_iff_aux (buffers : BufferMap) (g s : String) (newLog : Log) :
    reachedBufferLimits buffers g s newLog = true ↔
      ∃ logs, bufGet buffers (g, s) = some logs ∧
        (CLOUDWTACH_MAX_BUFFER_LENGTH ≤ logs.length + 1 ∨
          CLOUDWATCH_MAX_BUFFER_SIZE ≤
            (logs.map (fun l => byteLength l.message + CLOUDWATCH_FIXED_EVENT_OVERHEAD)).sum +
              (byteLength newLog.message + CLOUDWATCH_FIXED_EVENT_OVERHEAD)) := by
  unfold reachedBufferLimits
  cases hget : bufGet buffers (g, s) with
  | none => simp
  | some logs =>
    simp only [Option.some.injEq]
    by_cases hC : CLOUDWTACH_MAX_BUFFER_LENGTH ≤ logs.length + 1
    · simp only [if_pos hC, true_iff]
      exact ⟨logs, rfl, Or.inl hC⟩
    · simp only [if_neg hC]
      rw [foldl_add_add_eq_sum, Nat.zero_add]
      constructor
      · intro h
        exact ⟨logs, rfl, Or.inr (of_decide_eq_true h)⟩
      · rintro ⟨logs2, heq, hor⟩
        cases heq
        rcases hor with h | h
        · exact absurd h hC
        · exact decide_eq_true h

/-- The buffer used in the C5 counterexample: one buffered event whose message
has `2 ^ 20 - 27` bytes, at destination `("g", "s")`. -/
def nearFullBuffer : BufferMap :=
  [(("g", "s"),
    [{ timestamp := 0, message := List.replicate (CLOUDWATCH_MAX_BUFFER_SIZE - 27) 97 }])]

/-- A one-byte candidate event. -/
def oneByteLog : Log := { timestamp := 0, message := [97] }

/-- C5 counterexample: with one buffered event of `2 ^ 20 - 27` message bytes
and a one-byte candidate, counting each message with the 26-byte per-event
overhead reaches the maximum batch size (`(2 ^ 20 - 1) + 27 ≥ 2 ^ 20`), so the
condition claimed — which is what the main module's predicate computes —
holds; but the cited variant predicate sums raw message bytes only
(`(2 ^ 20 - 27) + 1 < 2 ^ 20`) and returns false. -/
theorem reachedBufferLimits_overhead_cex :
    B.reachedBufferLimits nearFullBuffer "g" "s" oneByteLog = false ∧
    reachedBufferLimits nearFullBuffer "g" "s" oneByteLog = true := by
  have key : ∀ msg cand : List Nat,
      msg.length = CLOUDWATCH_MAX_BUFFER_SIZE - 27 → cand.length = 1 →
      B.reachedBufferLimits [(("g", "s"), [{ timestamp := 0, message := msg }])] "g" "s"
        { timestamp := 0, message := cand } = false ∧
      reachedBufferLimits [(("g", "s"), [{ timestamp := 0, message := msg }])] "g" "s"
        { timestamp := 0, message := cand } = true := by
    intro msg cand hm hc
    have hB : CLOUDWATCH_MAX_BUFFER_SIZE = 1048576 := rfl
    have hL : CLOUDWTACH_MAX_BUFFER_LENGTH = 10000 := rfl
    have hO : CLOUDWATCH_FIXED_EVENT_OVERHEAD = 26 := rfl
    have hget : bufGet [(("g", "s"), [{ timestamp := 0, message := msg }])] ("g", "s") =
        some [{ timestamp := 0, message := msg }] := by
      rw [bufGet]
      rfl
    constructor
    · rw [← Bool.not_eq_true, reachedBufferLimitsB_iff_aux]
      rintro ⟨logs, heq, hor⟩
      rw [hget, Option.some.injEq] at heq
      subst heq
      simp only [List.map_cons, List.map_nil, List.sum_cons, List.sum_nil, byteLength,
        List.length_cons, List.length_nil, hm, hc, hB, hL] at hor
      rcases hor with h | h
      · omega
      · omega
    · rw [reachedBufferLimits_iff_aux]
      refine ⟨_, hget, Or.inr ?_⟩
      simp only [List.map_cons, List.map_nil, List.sum_cons, List.sum_nil, byteLength,
        hm, hc, hB, hO]
      omega
  have h := key (List.replicate (CLOUDWATCH_MAX_BUFFER_SIZE - 27) 97) [97]
    (by rw [List.length_replicate]) rfl
  rw [nearFullBuffer, oneByteLog]
  exact h

/-- C5 (amended): the cited variant predicate returns true exactly when the
destination has a buffer and either appending the candidate would make the
buffer reach the maximum event count (10000), or the sum of the raw UTF-8
message byte lengths of buffer and candidate — with no per-event overhead
added — reaches the maximum batch byte size (`2 ^ 20`). -/
theorem reachedBufferLimitsB_iff (buffers : BufferMap) (g s : String) (newLog : Log) :
    B.reachedBufferLimits buffers g s newLog = true ↔
      ∃ logs, bufGet buffers (g, s) = some logs ∧
        (CLOUDWTACH_MAX_BUFFER_LENGTH ≤ logs.length + 1 ∨
          CLOUDWATCH_MAX_BUFFER_SIZE ≤
            (logs.map (fun l => byteLength l.message)).sum + byteLength newLog.message) :=
  reachedBufferLimitsB_iff_aux buffers g s newLog

/-- Concrete instantiation of `reachedBufferLimitsB_iff` on a one-entry
buffer. -/
theorem reachedBufferLimitsB_iff_witness :
    B.reachedBufferLimits [(("g", "s"), [{ timestamp := 0, message := [97] }])] "g" "s"
        { timestamp := 1, message := [98, 99] } = true ↔
      ∃ logs, bufGet [(("g", "s"), [{ timestamp := 0, message := [97] }])] ("g", "s")
          = some logs ∧
        (CLOUDWTACH_MAX_BUFFER_LENGTH ≤ logs.length + 1 ∨
          CLOUDWATCH_MAX_BUFFER_SIZE ≤
            (logs.map (fun l => byteLength l.message)).sum +
              byteLength ([98, 99] : List Nat)) :=
  reachedBufferLimitsB_iff [(("g", "s"), [{ timestamp := 0, message := [97] }])] "g" "s"
    { timestamp := 1, message := [98, 99] }

namespace Pg

/-- A log event of the `CloudWatchLogger` class implementation.  Its message
is represented as the list of Unicode code points of the JavaScript string,
so that both `Buffer.byteLength(message, "utf-8")` (the sum of per-character
UTF-8 widths) and the re-decode performed by
`Buffer.from(message).subarray(0, n).toString()` are expressible. -/
structure PLog where
  timestamp : Nat
  message : List Nat
  deriving DecidableEq

/-- UTF-8 byte width of a code point: 1 up to U+007F, 2 up to U+07FF, 3 up to
U+FFFF, 4 beyond. -/
def utf8Width (c : Nat) : Nat :=
  if c < 128 then 1 else if c < 2048 then 2 else if c < 65536 then 3 else 4

/-- `Buffer.byteLength(message, "utf-8")`: total UTF-8 byte count of the
code-point sequence. -/
def byteLengthP (m : List Nat) : Nat := (m.map utf8Width).sum

/-- U+FFFD, the replacement character the UTF-8 decoder substitutes for an
incomplete trailing sequence; its own encoding is 3 bytes. -/
def REPLACEMENT_CHAR : Nat := 65533

/-- `Buffer.from(message).subarray(0, n).toString()` on a valid-UTF-8 source:
each leading character whose full encoding fits in the remaining byte budget
is kept; a non-empty trailing fragment of a cut multi-byte character decodes
to one U+FFFD; budget 0 ends the string. -/
def sliceToString : List Nat → Nat → List Nat
  | [], _ => []
  | c :: cs, n =>
    if utf8Width c ≤ n then c :: sliceToString cs (n - utf8Width c)
    else if n = 0 then [] else [REPLACEMENT_CHAR]

/-- `CloudWatchLogger.logEventExceedsSize`: **strict** comparison,
`Buffer.byteLength(log.message, "utf-8") > CLOUDWATCH_MAX_EVENT_SIZE`. -/
def logEventExceedsSize (log : PLog) : Bool :=
  decide (CLOUDWATCH_MAX_EVENT_SIZE < byteLengthP log.message)

/-- The logger instance's `bufferedLogs` map. -/
abbrev PBufferMap := List ((String × String) × List PLog)

/-- `Map.get` on the instance buffer map. -/
def bufGetP (m : PBufferMap) (k : String × String) : Option (List PLog) :=
  (m.find? (fun e => decide (e.1 = k))).map (fun e => e.2)

/-- `reachedBufferLimits` of `CloudWatchLogger` — structurally identical to
the main module's: count condition, then byte totals with the fixed 26-byte
overhead on every message, candidate included. -/
def reachedBufferLimits (buffers : PBufferMap) (logGroup logStream : String)
    (newLog : PLog) : Bool :=
  match bufGetP buffers (logGroup, logStream) with
  | none => false
  | some logs =>
    if CLOUDWTACH_MAX_BUFFER_LENGTH ≤ logs.length + 1 then true
    else
      let bufferSize := logs.foldl
        (fun accumulator log =>
          accumulator + byteLengthP log.message + CLOUDWATCH_FIXED_EVENT_OVERHEAD) 0
      let messageSize := byteLengthP newLog.message + CLOUDWATCH_FIXED_EVENT_OVERHEAD
      decide (CLOUDWATCH_MAX_BUFFER_SIZE ≤ bufferSize + messageSize)

/-- `Config.overSizedMessageAction`. -/
inductive Action
  | clip
  | error
  | console
  deriving DecidableEq

/-- Visible outcome of `CloudWatchLogger.log`: the `Error` returned to the
caller; a console-only emission (`console.info` of the JSON-parsed message,
falling back to the raw text, then `return` with no error and nothing
buffered); or an event handed to `pushLog`. -/
inductive LogOutcome
  | errored (message : String)
  | consoleEmitted
  | pushed (pushed : PLog)
  deriving DecidableEq

/-- `CloudWatchLogger.log(logGroupName, logStreamName, log)`: first component
the value of `reachedBufferLimits`, i.e. whether the limit-triggered
`this.flush()` was fired (not awaited); second component the policy outcome.
Under `clip` the message becomes the byte slice re-decoded (`sliceToString`)
and the event is pushed synchronously; an event that does not exceed the size
is pushed unchanged. -/
def log (action : Action) (buffers : PBufferMap) (logGroupName logStreamName : String)
    (lg : PLog) : Bool × LogOutcome :=
  (reachedBufferLimits buffers logGroupName logStreamName lg,
   if logEventExceedsSize lg then
     match action with
     | Action.clip =>
       LogOutcome.pushed { timestamp := lg.timestamp, message := sliceToString lg.message CLOUDWATCH_MAX_EVENT_SIZE }
     | Action.error => LogOutcome.errored ("Log event exceeds size limit: 256Kb")
     | Action.console => LogOutcome.consoleEmitted
   else LogOutcome.pushed lg)

end Pg

/-- Every character encodes to at least one byte. -/
theorem utf8Width_pos (c : Nat) : 1 ≤ Pg.utf8Width c := by
  unfold Pg.utf8Width
  split
  · omega
  split
  · omega
  split
  · omega
  · omega

/-- Byte length of an appended code-point sequence. -/
theorem byteLengthP_append (a b : List Nat) :
    Pg.byteLengthP (a ++ b) = Pg.byteLengthP a + Pg.byteLengthP b := by
  simp [Pg.byteLengthP]

/-- Byte length of a run of a one-byte character. -/
theorem byteLengthP_replicate_one (k c : Nat) (hc : Pg.utf8Width c = 1) :
    Pg.byteLengthP (List.replicate k c) = k := by
  induction k with
  | zero => rfl
  | succ m ih =>
    simp only [List.replicate_succ, Pg.byteLengthP, List.map_cons, List.sum_cons] at ih ⊢
    omega

/-- Unfolding equation of `sliceToString` on a non-empty message. -/
theorem sliceToString_cons (c : Nat) (cs : List Nat) (n : Nat) :
    Pg.sliceToString (c :: cs) n =
      if Pg.utf8Width c ≤ n then c :: Pg.sliceToString cs (n - Pg.utf8Width c)
      else if n = 0 then [] else [Pg.REPLACEMENT_CHAR] := rfl

/-- The slice re-decode never exceeds the byte budget by more than two bytes:
the kept characters fit in the budget, and a cut fragment leaves at most
`n - 1` prefix bytes plus the 3-byte U+FFFD. -/
theorem byteLengthP_sliceToString_le (msg : List Nat) (n : Nat) :
    Pg.byteLengthP (Pg.sliceToString msg n) ≤ n + 2 := by
  induction msg generalizing n with
  | nil => simp [Pg.sliceToString, Pg.byteLengthP]
  | cons c cs ih =>
    unfold Pg.sliceToString
    by_cases h : Pg.utf8Width c ≤ n
    · rw [if_pos h]
      have hrec := ih (n - Pg.utf8Width c)
      have hw := utf8Width_pos c
      simp only [Pg.byteLengthP, List.map_cons, List.sum_cons] at hrec ⊢
      omega
    · rw [if_neg h]
      by_cases hn : n = 0
      · rw [if_pos hn]
        simp [Pg.byteLengthP]
      · rw [if_neg hn]
        have hr : Pg.byteLengthP [Pg.REPLACEMENT_CHAR] = 3 := rfl
        rw [hr]
        omega

/-- On a message of one-byte characters the slice re-decode is a plain
`take`. -/
theorem sliceToString_ascii (msg : List Nat) (n : Nat)
    (h : ∀ c ∈ msg, Pg.utf8Width c = 1) :
    Pg.sliceToString msg n = msg.take n := by
  induction msg generalizing n with
  | nil => simp [Pg.sliceToString]
  | cons c cs ih =>
    have hc : Pg.utf8Width c = 1 := h c (List.mem_cons_self c cs)
    unfold Pg.sliceToString
    cases n with
    | zero =>
      rw [if_neg (by omega), if_pos rfl]
      simp
    | succ m =>
      rw [if_pos (by omega), hc, Nat.succ_sub_one, List.take_succ_cons]
      rw [ih m (fun x hx => h x (List.mem_cons_of_mem c hx))]

/-- Byte length equals character count on one-byte characters. -/
theorem byteLengthP_ascii (msg : List Nat) (h : ∀ c ∈ msg, Pg.utf8Width c = 1) :
    Pg.byteLengthP msg = msg.length := by
  induction msg with
  | nil => rfl
  | cons c cs ih =>
    have hc : Pg.utf8Width c = 1 := h c (List.mem_cons_self c cs)
    simp only [Pg.byteLengthP, List.map_cons, List.sum_cons, List.length_cons] at ih ⊢
    rw [hc, ih (fun x hx => h x (List.mem_cons_of_mem c hx))]
    omega

/-- Slicing distributes over a leading run of one-byte characters that fits
in the budget. -/
theorem sliceToString_replicate_run (k : Nat) (c : Nat) (hc : Pg.utf8Width c = 1)
    (rest : List Nat) (n : Nat) (h : k ≤ n) :
    Pg.sliceToString (List.replicate k c ++ rest) n =
      List.replicate k c ++ Pg.sliceToString rest (n - k) := by
  induction k generalizing n with
  | zero => simp
  | succ m ih =>
    cases n with
    | zero => omega
    | succ p =>
      simp only [List.replicate_succ, List.cons_append]
      rw [sliceToString_cons, hc, if_pos (by omega : 1 ≤ p + 1)]
      have h1 : p + 1 - 1 = p := by omega
      have h2 : p + 1 - (m + 1) = p - m := by omega
      rw [h1, h2, ih p (by omega)]

/-- The C3 counterexample message: 262117 one-byte characters followed by one
2-byte character (U+00E9).  Its UTF-8 encoding has 262119 bytes, so it
exceeds the maximum (strictly); the 262118-byte cut lands one byte into the
final character. -/
def mbLog : Pg.PLog :=
  { timestamp := 0, message := List.replicate (CLOUDWATCH_MAX_EVENT_SIZE - 1) 97 ++ [233] }

/-- C3 counterexample: under the `clip` policy, `CloudWatchLogger.log` on
`mbLog` buffers an event whose message is the 262117 one-byte characters plus
one U+FFFD — 262120 UTF-8 bytes, not the claimed exactly-262118: the byte cut
landed inside the final 2-byte character and the re-decode replaced the
fragment with the 3-byte replacement character. -/
theorem clip_multibyte_cut_cex :
    (Pg.log Pg.Action.clip [] "g" "s" mbLog).2 =
      Pg.LogOutcome.pushed { timestamp := 0, message := List.replicate (CLOUDWATCH_MAX_EVENT_SIZE - 1) 97 ++ [Pg.REPLACEMENT_CHAR] } ∧
    CLOUDWATCH_MAX_EVENT_SIZE < Pg.byteLengthP mbLog.message ∧
    Pg.byteLengthP
        (List.replicate (CLOUDWATCH_MAX_EVENT_SIZE - 1) 97 ++ [Pg.REPLACEMENT_CHAR]) =
      CLOUDWATCH_MAX_EVENT_SIZE + 2 := by
  have h97 : Pg.utf8Width 97 = 1 := rfl
  have hlen : Pg.byteLengthP mbLog.message = CLOUDWATCH_MAX_EVENT_SIZE + 1 := by
    rw [mbLog]
    rw [byteLengthP_append, byteLengthP_replicate_one _ 97 h97]
    have h233 : Pg.byteLengthP [233] = 2 := rfl
    rw [h233]
    have hM : CLOUDWATCH_MAX_EVENT_SIZE = 262118 := rfl
    rw [hM]
  have hex : Pg.logEventExceedsSize mbLog = true := by
    unfold Pg.logEventExceedsSize
    rw [hlen]
    simp
  have hslice : Pg.sliceToString mbLog.message CLOUDWATCH_MAX_EVENT_SIZE =
      List.replicate (CLOUDWATCH_MAX_EVENT_SIZE - 1) 97 ++ [Pg.REPLACEMENT_CHAR] := by
    rw [mbLog]
    rw [sliceToString_replicate_run _ 97 h97 _ _ (by omega)]
    have harith : CLOUDWATCH_MAX_EVENT_SIZE - (CLOUDWATCH_MAX_EVENT_SIZE - 1) = 1 := by
      have hM : CLOUDWATCH_MAX_EVENT_SIZE = 262118 := rfl
      rw [hM]
    rw [harith]
    rfl
  refine ⟨?_, ?_, ?_⟩
  · simp only [Pg.log, hex, if_true, hslice]
    rfl
  · rw [hlen]
    omega
  · rw [byteLengthP_append, byteLengthP_replicate_one _ 97 h97]
    have hrepl : Pg.byteLengthP [Pg.REPLACEMENT_CHAR] = 3 := rfl
    rw [hrepl]
    have hM : CLOUDWATCH_MAX_EVENT_SIZE = 262118 := rfl
    rw [hM]

/-- C3 (amended): for every event whose message strictly exceeds the maximum
single-event byte size, `CloudWatchLogger.log` behaves per the configured
`overSizedMessageAction`: under `clip` the event is buffered with its message
replaced by the re-decode of the first 262118 bytes of its UTF-8 encoding —
at most 262120 bytes in general (the cut fragment of a multi-byte character
becomes one U+FFFD), and exactly 262118 bytes whenever the cut lands on a
character boundary, in particular for one-byte-per-character messages; under
`error` an `Error` is returned and the event is never buffered; under
`console` the event is never buffered, is emitted to local diagnostic output
only, and no error is returned. -/
theorem pgLog_oversized_policy_spec :
    (∀ (buffers : Pg.PBufferMap) (g s : String) (lg : Pg.PLog),
        CLOUDWATCH_MAX_EVENT_SIZE < Pg.byteLengthP lg.message →
        (Pg.log Pg.Action.clip buffers g s lg).2 =
          Pg.LogOutcome.pushed { timestamp := lg.timestamp, message := Pg.sliceToString lg.message CLOUDWATCH_MAX_EVENT_SIZE } ∧
        Pg.byteLengthP (Pg.sliceToString lg.message CLOUDWATCH_MAX_EVENT_SIZE) ≤
          CLOUDWATCH_MAX_EVENT_SIZE + 2 ∧
        ((∀ c ∈ lg.message, Pg.utf8Width c = 1) →
          Pg.byteLengthP (Pg.sliceToString lg.message CLOUDWATCH_MAX_EVENT_SIZE) =
            CLOUDWATCH_MAX_EVENT_SIZE)) ∧
    (∀ (buffers : Pg.PBufferMap) (g s : String) (lg : Pg.PLog),
        CLOUDWATCH_MAX_EVENT_SIZE < Pg.byteLengthP lg.message →
        (Pg.log Pg.Action.error buffers g s lg).2 =
          Pg.LogOutcome.errored ("Log event exceeds size limit: 256Kb")) ∧
    (∀ (buffers : Pg.PBufferMap) (g s : String) (lg : Pg.PLog),
        CLOUDWATCH_MAX_EVENT_SIZE < Pg.byteLengthP lg.message →
        (Pg.log Pg.Action.console buffers g s lg).2 = Pg.LogOutcome.consoleEmitted) := by
  refine ⟨?_, ?_, ?_⟩
  · intro buffers g s lg h
    refine ⟨?_, byteLengthP_sliceToString_le lg.message CLOUDWATCH_MAX_EVENT_SIZE, ?_⟩
    · simp [Pg.log, Pg.logEventExceedsSize, h]
    · intro hascii
      rw [sliceToString_ascii lg.message CLOUDWATCH_MAX_EVENT_SIZE hascii]
      have htake : ∀ c ∈ lg.message.take CLOUDWATCH_MAX_EVENT_SIZE, Pg.utf8Width c = 1 :=
        fun c hc => hascii c (List.mem_of_mem_take hc)
      rw [byteLengthP_ascii _ htake, List.length_take]
      rw [byteLengthP_ascii _ hascii] at h
      omega
  · intro buffers g s lg h
    simp [Pg.log, Pg.logEventExceedsSize, h]
  · intro buffers g s lg h
    simp [Pg.log, Pg.logEventExceedsSize, h]

/-- Concrete instantiation of `pgLog_oversized_policy_spec` at a message of
262119 one-byte characters (so also 262119 bytes). -/
theorem pgLog_oversized_policy_spec_witness :
    ((Pg.log Pg.Action.clip [] "g" "s"
        { timestamp := 0, message := List.replicate (CLOUDWATCH_MAX_EVENT_SIZE + 1) 97 }).2 =
      Pg.LogOutcome.pushed { timestamp := 0, message := Pg.sliceToString (List.replicate (CLOUDWATCH_MAX_EVENT_SIZE + 1) 97) CLOUDWATCH_MAX_EVENT_SIZE } ∧
      Pg.byteLengthP (Pg.sliceToString (List.replicate (CLOUDWATCH_MAX_EVENT_SIZE + 1) 97)
          CLOUDWATCH_MAX_EVENT_SIZE) ≤ CLOUDWATCH_MAX_EVENT_SIZE + 2 ∧
      ((∀ c ∈ List.replicate (CLOUDWATCH_MAX_EVENT_SIZE + 1) 97, Pg.utf8Width c = 1) →
        Pg.byteLengthP (Pg.sliceToString (List.replicate (CLOUDWATCH_MAX_EVENT_SIZE + 1) 97)
            CLOUDWATCH_MAX_EVENT_SIZE) = CLOUDWATCH_MAX_EVENT_SIZE)) ∧
    ((Pg.log Pg.Action.error [] "g" "s"
        { timestamp := 0, message := List.replicate (CLOUDWATCH_MAX_EVENT_SIZE + 1) 97 }).2 =
      Pg.LogOutcome.errored ("Log event exceeds size limit: 256Kb")) ∧
    ((Pg.log Pg.Action.console [] "g" "s"
        { timestamp := 0, message := List.replicate (CLOUDWATCH_MAX_EVENT_SIZE + 1) 97 }).2 =
      Pg.LogOutcome.consoleEmitted) :=
  have hbig : CLOUDWATCH_MAX_EVENT_SIZE <
      Pg.byteLengthP (List.replicate (CLOUDWATCH_MAX_EVENT_SIZE + 1) 97) := by
    rw [byteLengthP_replicate_one _ 97 rfl]
    omega
  ⟨pgLog_oversized_policy_spec.1 [] "g" "s" _ hbig,
   pgLog_oversized_policy_spec.2.1 [] "g" "s" _ hbig,
   pgLog_oversized_policy_spec.2.2 [] "g" "s" _ hbig⟩

/-- A JavaScript error as the provisioning code observes it: `error.name` is
what `isResourceAlreadyExistsException` inspects; the error value itself
becomes the `cause` of the wrapping error. -/
structure JsError where
  name : String
  message : String
  deriving DecidableEq

/-- `isResourceAlreadyExistsException(error)`: the error's `name` is
`"ResourceAlreadyExistsException"` (the `instanceof` branch of the source is
subsumed by the name test for errors coming over the wire). -/
def isResourceAlreadyExistsException (error : JsError) : Bool :=
  decide (error.name = "ResourceAlreadyExistsException")

/-- Outcome of one remote `client.send(new CreateLogGroupCommand({…}))`
call, supplied as an oracle parameter of the embedding. -/
inductive RemoteOutcome
  | ok
  | raised (error : JsError)
  deriving DecidableEq

/-- What `createLogGroup` does for the caller: normal return, the
not-initialized guard `Error`, or the wrapping `Error` (message plus
`cause`). -/
inductive CreateGroupResult
  | ok
  | notInitialized (message : String)
  | failed (message : String) (cause : JsError)
  deriving DecidableEq

/-- The `logGroups` registry: group name ↦ stream names known to exist. -/
abbrev GroupRegistry := List (String × List String)

/-- `logGroups.has(name)`. -/
def regHas (r : GroupRegistry) (name : String) : Bool :=
  r.any (fun e => decide (e.1 = name))

/-- `logGroups.set(name, v)` (insertion order preserved). -/
def regSet (r : GroupRegistry) (name : String) (v : List String) : GroupRegistry :=
  if regHas r name then r.map (fun e => if e.1 = name then (name, v) else e)
  else r ++ [(name, v)]

/-- `createLogGroup(logGroupName)` of the main module: returns the result for
the caller, the updated registry, and the number of remote create-group calls
issued.  `clientReady` is whether the module-level `client` is set; `remote`
is the outcome the remote sink would give to a create call. -/
def createLogGroup (clientReady : Bool) (logGroups : GroupRegistry)
    (logGroupName : String) (remote : RemoteOutcome) :
    CreateGroupResult × GroupRegistry × Nat :=
  if !clientReady then
    (CreateGroupResult.notInitialized ("CloudWatchLogs `client` is not initialized."),
      logGroups, 0)
  else if regHas logGroups logGroupName then
    (CreateGroupResult.ok, logGroups, 0)
  else
    match remote with
    | RemoteOutcome.ok => (CreateGroupResult.ok, regSet logGroups logGroupName [], 1)
    | RemoteOutcome.raised error =>
      if isResourceAlreadyExistsException error then
        (CreateGroupResult.ok, regSet logGroups logGroupName [], 1)
      else
        (CreateGroupResult.failed ("Create Log Group Failed") error, logGroups, 1)

/-- After `regSet r name v` the registry contains `name`. -/
theorem regHas_regSet (r : GroupRegistry) (name : String) (v : List String) :
    regHas (regSet r name v) name = true := by
  unfold regSet
  by_cases h : regHas r name = true
  · rw [if_pos h]
    unfold regHas at h ⊢
    rw [List.any_eq_true] at h ⊢
    obtain ⟨e, he, hp⟩ := h
    refine ⟨if e.1 = name then (name, v) else e, List.mem_map_of_mem _ he, ?_⟩
    rw [if_pos (of_decide_eq_true hp)]
    simp
  · rw [if_neg h]
    unfold regHas
    rw [List.any_append]
    simp [regHas] at h ⊢

/-- C6 counterexample: for a remote failure that is not already-exists, the
wrapping error is identical for two distinct group names — the source raises
`new Error("Create Log Group Failed", { cause: error })`, which carries the
cause but no resource name, so the resource name is not attached. -/
theorem createLogGroup_error_lacks_name :
    (createLogGroup true [] "groupA"
        (RemoteOutcome.raised ⟨"ServiceUnavailableException", "boom"⟩)).1 =
      (createLogGroup true [] "groupB"
        (RemoteOutcome.raised ⟨"ServiceUnavailableException", "boom"⟩)).1 ∧
    "groupA" ≠ "groupB" ∧
    (createLogGroup true [] "groupA"
        (RemoteOutcome.raised ⟨"ServiceUnavailableException", "boom"⟩)).1 =
      CreateGroupResult.failed ("Create Log Group Failed")
        ⟨"ServiceUnavailableException", "boom"⟩ := by
  refine ⟨rfl, by decide, rfl⟩

/-- C6 (amended): with the client initialized, `createLogGroup` is idempotent
with respect to the registry: a registered name returns immediately — no
remote call, no state change; an unregistered name issues exactly one remote
create call; a remote already-exists error is treated as success (not
propagated) and the name is registered; any other remote error is wrapped —
fixed message `"Create Log Group Failed"` with the failure attached as
`cause` but without the resource name — and the registry is left unchanged. -/
theorem createLogGroup_spec (logGroups : GroupRegistry) (name : String) :
    (∀ remote, regHas logGroups name = true →
        createLogGroup true logGroups name remote = (CreateGroupResult.ok, logGroups, 0)) ∧
    (∀ remote, regHas logGroups name = false →
        (createLogGroup true logGroups name remote).2.2 = 1) ∧
    (∀ error, regHas logGroups name = false →
        isResourceAlreadyExistsException error = true →
        createLogGroup true logGroups name (RemoteOutcome.raised error) =
          (CreateGroupResult.ok, regSet logGroups name [], 1) ∧
        regHas (createLogGroup true logGroups name (RemoteOutcome.raised error)).2.1 name
          = true) ∧
    (∀ error, regHas logGroups name = false →
        isResourceAlreadyExistsException error = false →
        createLogGroup true logGroups name (RemoteOutcome.raised error) =
          (CreateGroupResult.failed ("Create Log Group Failed") error, logGroups, 1)) := by
  refine ⟨?_, ?_, ?_, ?_⟩
  · intro remote h
    simp [createLogGroup, h]
  · intro remote h
    cases remote with
    | ok => simp [createLogGroup, h]
    | raised error =>
      by_cases he : isResourceAlreadyExistsException error = true
      · simp [createLogGroup, h, he]
      · simp only [Bool.not_eq_true] at he
        simp [createLogGroup, h, he]
  · intro error h he
    constructor
    · simp [createLogGroup, h, he]
    · simp [createLogGroup, h, he, regHas_regSet]
  · intro error h he
    simp [createLogGroup, h, he]

/-- Concrete instantiation of `createLogGroup_spec`: the registered-name
no-op on a one-entry registry, and the wrapped failure on an empty one. -/
theorem createLogGroup_spec_witness :
    (createLogGroup true [("g", [])] "g" RemoteOutcome.ok =
      (CreateGroupResult.ok, [("g", [])], 0)) ∧
    (createLogGroup true [] "g" (RemoteOutcome.raised ⟨"AccessDenied", "no"⟩) =
      (CreateGroupResult.failed ("Create Log Group Failed") ⟨"AccessDenied", "no"⟩, [], 1)) ∧
    (createLogGroup true [] "g" (RemoteOutcome.raised ⟨"ResourceAlreadyExistsException", "x"⟩) =
      (CreateGroupResult.ok, regSet [] "g" [], 1)) :=
  ⟨(createLogGroup_spec [("g", [])] "g").1 RemoteOutcome.ok (by decide),
   (createLogGroup_spec [] "g").2.2.2 ⟨"AccessDenied", "no"⟩ (by decide) (by decide),
   ((createLogGroup_spec [] "g").2.2.1 ⟨"ResourceAlreadyExistsException", "x"⟩
      (by decide) (by decide)).1⟩

/-- The timer runtime: `setInterval` registers a repeating timer (fresh id,
given delay) and `clearInterval` removes one by id.  `active` lists the live
repeating timers as `(id, delay)` pairs. -/
structure TimerRt where
  nextId : Nat
  active : List (Nat × Nat)
  deriving DecidableEq

/-- `setInterval(callback, delay)`: returns the fresh timer id and registers
the repeating timer.  (Node runs a 0-delay interval as fast as the event loop
allows; it is a live repeating timer like any other.) -/
def setIntervalRt (rt : TimerRt) (delay : Nat) : Nat × TimerRt :=
  (rt.nextId, { nextId := rt.nextId + 1, active := rt.active ++ [(rt.nextId, delay)] })

/-- `clearInterval(id)`. -/
def clearIntervalRt (rt : TimerRt) (id : Nat) : TimerRt :=
  { rt with active := rt.active.filter (fun t => decide (t.1 ≠ id)) }

/-- The `FlushInterval` object's fields: `#value` and `#interval` (the id of
the currently installed timer, if any). -/
structure FlushIntervalState where
  value : Nat
  interval : Option Nat
  deriving DecidableEq

/-- The `FlushInterval` setter `set value(value)`: clear the previous timer
if one is installed, then *unconditionally* install a new repeating timer at
the assigned delay — also when the delay is 0 — and record the new value. -/
def setFlushIntervalValue (st : FlushIntervalState) (rt : TimerRt) (v : Nat) :
    FlushIntervalState × TimerRt :=
  let rt1 := match st.interval with
    | some id => clearIntervalRt rt id
    | none => rt
  let idRt := setIntervalRt rt1 v
  ({ value := v, interval := some idRt.1 }, idRt.2)

/-- The module configuration state: the remote client handle (if configured)
and the `FlushInterval` object. -/
structure EngineState where
  client : Option Nat
  fi : FlushIntervalState
  deriving DecidableEq

/-- The argument of `setup`: the client configuration and the
`flushInterval` field (`config.flushInterval ?? 1000`, hence optional in the
embedding). -/
structure SetupConfig where
  clientConfig : Nat
  flushInterval : Option Nat
  deriving DecidableEq

/-- `setup(config)`: if a client already exists, return immediately with no
change; otherwise construct the client and assign
`flushInterval.value = config.flushInterval ?? 1000`. -/
def setup (st : EngineState) (rt : TimerRt) (config : SetupConfig) :
    EngineState × TimerRt :=
  match st.client with
  | some _ => (st, rt)
  | none =>
    let fiRt := setFlushIntervalValue st.fi rt (config.flushInterval.getD 1000)
    ({ client := some config.clientConfig, fi := fiRt.1 }, fiRt.2)

/-- C8: `setup` is initialized exactly once — whenever a client already
exists, a further call returns normally and is a strict no-op: the client,
the flush-interval state (value and installed timer), and the timer runtime
are all left unchanged. -/
theorem setup_idempotent (st : EngineState) (rt : TimerRt) (config : SetupConfig)
    (clientConfig : Nat) (h : st.client = some clientConfig) :
    setup st rt config = (st, rt) := by
  unfold setup
  rw [h]

/-- Concrete instantiation of `setup_idempotent`: a second `setup` call on an
already configured engine changes nothing. -/
theorem setup_idempotent_witness :
    setup { client := some 7, fi := { value := 500, interval := some 0 } }
        { nextId := 1, active := [(0, 500)] } { clientConfig := 9, flushInterval := some 250 } =
      ({ client := some 7, fi := { value := 500, interval := some 0 } },
        { nextId := 1, active := [(0, 500)] }) :=
  setup_idempotent _ _ _ 7 rfl

/-- C9 counterexample: assigning interval 0 on a fresh engine does not
disable periodic flushing — the setter still calls `setInterval` and a
repeating timer with delay 0 is live afterwards (Node runs it every tick). -/
theorem flushInterval_zero_installs_timer :
    (setFlushIntervalValue { value := 1000, interval := none } { nextId := 0, active := [] } 0).2.active
      = [(0, 0)] ∧
    (setFlushIntervalValue { value := 1000, interval := none } { nextId := 0, active := [] } 0).1
      = { value := 0, interval := some 0 } := by
  exact ⟨rfl, rfl⟩

/-- C9 (amended): every assignment to `flushInterval.value` — any value,
including 0 — first cancels the previously installed timer (if any) and then
installs a fresh repeating timer at the assigned delay: afterwards the new
timer is live at exactly the assigned delay, the previous timer id is no
longer live, and the recorded value and timer id are updated.  Interval 0
therefore does not disable periodic flushing. -/
theorem flushInterval_set_spec (st : FlushIntervalState) (rt : TimerRt) (v : Nat)
    (hfresh : ∀ id, st.interval = some id → id < rt.nextId) :
    ((rt.nextId, v) ∈ (setFlushIntervalValue st rt v).2.active) ∧
    (∀ id, st.interval = some id →
      ∀ t ∈ (setFlushIntervalValue st rt v).2.active, t.1 ≠ id) ∧
    (setFlushIntervalValue st rt v).1.value = v ∧
    (setFlushIntervalValue st rt v).1.interval = some rt.nextId := by
  refine ⟨?_, ?_, rfl, ?_⟩
  · cases hs : st.interval with
    | none => simp [setFlushIntervalValue, setIntervalRt, hs]
    | some id => simp [setFlushIntervalValue, setIntervalRt, clearIntervalRt, hs]
  · intro id hs t ht
    rw [hs] at hfresh
    have hid : id < rt.nextId := hfresh id rfl
    simp only [setFlushIntervalValue, setIntervalRt, clearIntervalRt, hs] at ht
    rw [List.mem_append] at ht
    rcases ht with h | h
    · have := List.of_mem_filter h
      exact of_decide_eq_true this
    · rw [List.mem_singleton] at h
      subst h
      omega
  · cases hs : st.interval with
    | none => simp [setFlushIntervalValue, setIntervalRt, hs]
    | some id => simp [setFlushIntervalValue, setIntervalRt, clearIntervalRt, hs]

/-- Concrete instantiation of `flushInterval_set_spec`: reconfiguring from a
running 1000ms timer to 0 cancels timer 0 and installs timer 1 with delay
0. -/
theorem flushInterval_set_spec_witness :
    ((1, 0) ∈ (setFlushIntervalValue { value := 1000, interval := some 0 }
        { nextId := 1, active := [(0, 1000)] } 0).2.active) ∧
    (∀ id, ({ value := 1000, interval := some 0 } : FlushIntervalState).interval = some id →
      ∀ t ∈ (setFlushIntervalValue { value := 1000, interval := some 0 }
          { nextId := 1, active := [(0, 1000)] } 0).2.active, t.1 ≠ id) ∧
    (setFlushIntervalValue { value := 1000, interval := some 0 }
        { nextId := 1, active := [(0, 1000)] } 0).1.value = 0 ∧
    (setFlushIntervalValue { value := 1000, interval := some 0 }
        { nextId := 1, active := [(0, 1000)] } 0).1.interval = some 1 :=
  flushInterval_set_spec { value := 1000, interval := some 0 }
    { nextId := 1, active := [(0, 1000)] } 0
    (by intro id h; cases h; decide)

end Cwl
